import Mathlib

/-!
Verification of the conversational command/prompt engine of the
`telegram-bot-ts` repository against its natural-language specification.

The development shallowly embeds the engine found in `src/bot.ts`
(zustand store + dispatcher + finalizer), the cooldown-gated dispatcher of
`src/commandHandler.ts`, and the checkbox (multi-choice) prompt handlers of
`src/prompt.ts`.  Transport-level concerns (the Telegram client, message
delivery, logging) are abstract: outbound messages are collected into an
`outbox` list, and inbound text is fed to the embedded handlers directly.

JavaScript data is modelled as follows: objects used as string-keyed maps
(`Record`, `Map`) become association lists with JS insertion-order update
semantics; `null`/`undefined` become `Option`; thrown exceptions become
explicit error results on the paths where the source can throw.  Zod field
schemas appearing in this repository are non-transforming validators, so a
field schema is modelled as a boolean validity check over parsed values.
-/

/-- Runtime values flowing through the engine: parsed user replies and
finalized answers.  `vnan` models the JavaScript `NaN` produced by a failed
`parseInt`; `vstrs` models string arrays produced by checkbox prompts. -/
inductive Value where
  | vstr (s : String)
  | vnum (n : Int)
  | vnan
  | vbool (b : Bool)
  | vnull
  | vstrs (xs : List String)
deriving DecidableEq, Repr

/-- Lookup in a JS `Map`/object modelled as an association list
(first binding wins; the engine never creates duplicate keys). -/
def mapGet {κ α : Type} [BEq κ] : List (κ × α) → κ → Option α
  | [], _ => none
  | (k, v) :: rest, key => if k == key then some v else mapGet rest key

/-- JS object/`Map` update (`{...obj, [k]: v}` and `Map.set`): an existing
key keeps its position and gets the new value, a fresh key is appended. -/
def insertMap {κ α : Type} [BEq κ] : List (κ × α) → κ → α → List (κ × α)
  | [], k, v => [(k, v)]
  | (k1, v1) :: rest, k, v =>
    if k1 == k then (k, v) :: rest else (k1, v1) :: insertMap rest k v

/-- Lower-casing of an ASCII letter, as JS `toLowerCase` acts on the
text this engine compares (control tokens and choice labels). -/
def charToLower (c : Char) : Char :=
  if 'A' ≤ c ∧ c ≤ 'Z' then Char.ofNat (c.toNat + 32) else c

/-- JS `String.prototype.toLowerCase`. -/
def jsToLower (s : String) : String := String.mk (s.data.map charToLower)

/-- Whitespace as JS `trim` strips it. -/
def isWs (c : Char) : Bool :=
  c == ' ' || c == '\t' || c == '\n' || c == '\r'

/-- JS `String.prototype.trim`. -/
def jsTrim (s : String) : String :=
  String.mk (((s.data.dropWhile isWs).reverse.dropWhile isWs).reverse)

/-- One prompt of a `bot.ts` command (`Prompt<T>`): a key into the answer
object, the message text, optional help text, and an optional parser applied
to the raw reply.  The default parser is the identity on the raw string. -/
structure Prompt where
  key : String
  text : String
  help : Option String := none
  parser : Option (String → Value) := none

/-- A `bot.ts` command (`Command<T>`).  `shape` is the zod object schema
`inputSchema` in declaration order, each field schema modelled as a validity
check (the schemas registered in this repository do not transform values).
The optional `execute` action is not modelled: the claims under verification
concern the prompt flow and the finalized answers, and the engine resolves
the same answers whether or not an action is attached. -/
structure Cmd where
  name : String
  description : String
  title : String
  isPublic : Bool
  shape : List (String × (Value → Bool))
  prompts : List Prompt

/-- The zustand store state of `createBotStore` in `bot.ts`: a single
command stack, a single prompt cursor, a single responses map and a single
in-flow flag shared by every frame on the stack. -/
structure BotState where
  commandStack : List Cmd
  currentPromptIndex : Option Nat
  responses : List (String × Value)
  isInPromptFlow : Bool

/-- The store's initial state. -/
def initState : BotState :=
  { commandStack := [], currentPromptIndex := none, responses := [], isInPromptFlow := false }

/-- `pushCommand` of `createBotStore`: appends the command to the stack and
unconditionally resets the shared cursor to 0 and the shared responses map
to the empty object. -/
def pushCommand (st : BotState) (command : Cmd) : BotState :=
  { commandStack := st.commandStack ++ [command],
    currentPromptIndex := some 0,
    responses := [],
    isInPromptFlow := true }

/-- `popCommand` of `createBotStore`: drops the top frame; when the pre-pop
depth exceeds 1 it keeps the current (popped frame's) cursor and responses,
otherwise it clears them. -/
def popCommand (st : BotState) : BotState :=
  { commandStack := st.commandStack.dropLast,
    currentPromptIndex :=
      if st.commandStack.length > 1 then st.currentPromptIndex else none,
    responses := if st.commandStack.length > 1 then st.responses else [],
    isInPromptFlow := decide (st.commandStack.length > 1) }

/-- `gotResponse` of `createBotStore`: records one answer in the shared
responses map (`{...state.responses, [key]: value}`). -/
def gotResponse (st : BotState) (key : String) (value : Value) : BotState :=
  { st with responses := insertMap st.responses key value }

/-- `nextPrompt` of `createBotStore`: advances the cursor within the top
command; past the last prompt it sets the cursor to `null` and clears the
in-flow flag (the stack itself is left untouched). -/
def nextPrompt (st : BotState) : BotState :=
  match st.commandStack.getLast?, st.currentPromptIndex with
  | some currentCommand, some i =>
    let nextIndex := i + 1
    { st with
      currentPromptIndex :=
        if nextIndex < currentCommand.prompts.length then some nextIndex else none,
      isInPromptFlow := decide (nextIndex < currentCommand.prompts.length) }
  | _, _ => st

/-- `resetFlow` of `createBotStore`: clears the whole session state. -/
def resetFlow : BotState := initState

/-- The session-state invariant claimed by the spec: the stack is non-empty
iff the chat is in a prompt flow. -/
def storeInv (st : BotState) : Prop :=
  st.commandStack ≠ [] ↔ st.isInPromptFlow = true

/-- The direction of the invariant that every operation does preserve:
an in-flow chat has a non-empty stack. -/
def weakStoreInv (st : BotState) : Prop :=
  st.isInPromptFlow = true → st.commandStack ≠ []

/-- A single-prompt command used to exhibit store-level behaviour. -/
def c6Cmd : Cmd :=
  { name := "c6", description := "d", title := "C6", isPublic := true,
    shape := [("k", fun _ => true)],
    prompts := [{ key := "k", text := "ask k" }] }

/-- A store state mid-flow on the sole prompt of `c6Cmd`. -/
def c6State : BotState :=
  { commandStack := [c6Cmd], currentPromptIndex := some 0,
    responses := [], isInPromptFlow := true }

/-- A depth-2 store state with one collected answer, for the C10 witness. -/
def c10DeepState : BotState :=
  { commandStack := [c6Cmd, c6Cmd], currentPromptIndex := some 0,
    responses := [("k", Value.vstr "x")], isInPromptFlow := true }

/-- A depth-1 store state with one collected answer, for the C10 witness. -/
def c10ParentState : BotState :=
  { commandStack := [c6Cmd], currentPromptIndex := some 1,
    responses := [("k", Value.vstr "x")], isInPromptFlow := true }

/-- `z.string().min(n)` as a validity check. -/
def isStrMin (n : Nat) : Value → Bool
  | .vstr s => decide (n ≤ s.length)
  | _ => false

/-- `z.number().int().positive()` as a validity check (`NaN` is rejected by
`z.number()`, and in this integer model `int()` always holds). -/
def isIntPositive : Value → Bool
  | .vnum n => decide (0 < n)
  | _ => false

/-- `z.string().email()` abstracted as a validity check; the exact email
grammar is irrelevant to the claims, only that it is a non-transforming
string validator. -/
def isEmailLike : Value → Bool
  | .vstr s => s.data.contains '@'
  | _ => false

/-- Digit-prefix accumulator behind `jsParseInt`: consumes leading decimal
digits, ignores everything after the first non-digit, `none` when no digit
was consumed (JS yields `NaN` there). -/
def takeDigits : List Char → Nat → Bool → Option Nat
  | [], acc, seen => if seen then some acc else none
  | c :: rest, acc, seen =>
    if c.isDigit then takeDigits rest (acc * 10 + (c.toNat - 48)) true
    else if seen then some acc else none

/-- JavaScript `parseInt(input, 10)`: skip surrounding whitespace, optional
sign, longest digit prefix; `NaN` when no digit is found. -/
def jsParseInt (s : String) : Value :=
  match (jsTrim s).data with
  | '-' :: rest =>
    match takeDigits rest 0 false with
    | some n => .vnum (-(n : Int))
    | none => .vnan
  | '+' :: rest =>
    match takeDigits rest 0 false with
    | some n => .vnum (n : Int)
    | none => .vnan
  | cs =>
    match takeDigits cs 0 false with
    | some n => .vnum (n : Int)
    | none => .vnan

/-- The `customer_info` command registered in the application entry point:
two prompts `name` (min length 2) and `email`, private. -/
def customerInfoCmd : Cmd :=
  { name := "customer_info",
    description := "Provide customer information",
    title := "Customer Info",
    isPublic := false,
    shape := [("name", isStrMin 2), ("email", isEmailLike)],
    prompts :=
      [{ key := "name", text := "Customer Name", help := some "At least 2 characters." },
       { key := "email", text := "Customer Email", help := some "A valid email address." }] }

/-- The `order_item` command registered in the application entry point:
`productName` (non-empty string) and `quantity` (`parseInt`, positive int). -/
def orderItemCmd : Cmd :=
  { name := "order_item",
    description := "Add an item to the order",
    title := "Order Item",
    isPublic := true,
    shape := [("productName", isStrMin 1), ("quantity", isIntPositive)],
    prompts :=
      [{ key := "productName", text := "Product Name", help := some "Non-empty." },
       { key := "quantity", text := "Quantity", help := some "A positive integer.",
         parser := some jsParseInt }] }

/-- The `special_order` command registered in the application entry point.
Its `customerInfo` and `items` prompts delegate to nested `bot.exec` runs
through `async` parsers; an asynchronous parser is not a pure
`String → Value` function, so those two parsers are left unmodelled
(`none`) — no theorem below evaluates them.  The `status`, `fulfillmentDate`
and `notes` fields are abstracted to string checks, which again no theorem
depends on: the claims about this command concern only the store-level
frame discipline. -/
def specialOrderCmd : Cmd :=
  { name := "special_order",
    description := "Create a special order",
    title := "Special Order",
    isPublic := true,
    shape :=
      [("customerInfo", fun _ => true), ("items", fun _ => true),
       ("status", fun v => v == .vstr "Pending" || v == .vstr "Processing" || v == .vstr "Completed"),
       ("fulfillmentDate", fun _ => true), ("notes", fun _ => true)],
    prompts :=
      [{ key := "customerInfo", text := "Customer Information" },
       { key := "items", text := "Order Items", help := some "Number of items." },
       { key := "status", text := "Order Status", help := some "Pending, Processing or Completed." },
       { key := "fulfillmentDate", text := "Fulfillment Date", help := some "YYYY-MM-DD." },
       { key := "notes", text := "Additional Notes", help := some "Or none." }] }

/-- A `special_order` frame that has already collected its `customerInfo`
answer and moved to its second prompt. -/
def c2ParentMidState : BotState :=
  { commandStack := [specialOrderCmd], currentPromptIndex := some 1,
    responses := [("customerInfo", Value.vstr "Jane <jane@acme.test>")],
    isInPromptFlow := true }

/-- The top of the command stack (`commandStack[commandStack.length - 1]`). -/
def topCmd (st : BotState) : Option Cmd := st.commandStack.getLast?

/-- Name of the top command; the store subscriber's identity test
`stack[last] === command` is modelled by name (registry names are unique). -/
def topName (st : BotState) : Option String := (topCmd st).map Cmd.name

/-- The parser step of `handlePromptResponse`:
`(currentPrompt.parser || ((input) => input))(message.text)`. -/
def parseOf (p : Prompt) (raw : String) : Value :=
  (p.parser.getD Value.vstr) raw

/-- `inputSchema.parse(responses)` for the zod object schema `shape`: every
declared field must be present and pass its check; the result keeps the
fields in shape-declaration order and drops unknown keys.  `none` models a
thrown `ZodError`. -/
def parseShape : List (String × (Value → Bool)) → List (String × Value) →
    Option (List (String × Value))
  | [], _ => some []
  | (k, check) :: rest, responses =>
    match mapGet responses k with
    | none => none
    | some v =>
      if check v then
        match parseShape rest responses with
        | none => none
        | some tail => some ((k, v) :: tail)
      else none

/-- Placeholder for the dynamic text of
`Invalid input: ${error.errors[0]?.message}...` sent by the
`ZodError` catch branch of `handlePromptResponse`. -/
def invalidInputMsg : String := "Invalid input"

/-- The generic catch branch of `handlePromptResponse` (non-`ZodError`). -/
def unexpectedErrorMsg : String :=
  "An unexpected error occurred. Please try again, type /help for assistance, or /stop to cancel."

/-- Sent by `stopCurrentCommand` after popping a frame. -/
def commandStoppedMsg : String := "Command stopped. What would you like to do next?"

/-- Sent by `stopCurrentCommand` when no command is active. -/
def noActiveCommandMsg : String := "No active command to stop."

/-- Sent by `sendHelpForCurrentPrompt` when the prompt has no help text. -/
def noHelpMsg : String := "No help available for this prompt."

/-- Sent by `handleMessage` for unknown input outside a flow. -/
def unrecognizedMsg : String :=
  "Unrecognized command. Please use /help to see available commands."

/-- Sent by `handleMessage` when a non-privileged user types a private
command name. -/
def noPermissionMsg : String := "You don't have permission to execute this command."

/-- Sent by `handleMessage` when an interactive `exec` call throws. -/
def execErrorMsg : String :=
  "An error occurred while executing the command. Please try again."

/-- The whole bot, one chat: the zustand store, the command registry
(`Map`), the live store subscriptions created by pending `exec` calls
(in subscription order, each with an id standing for its closure), the
outbound messages sent so far, and the answers each completed `exec`
resolved with.  `hasAccess` abstracts `userHasPrivateAccess`, which the
source stubs out with `return true` behind a "implement your logic" note. -/
structure Machine where
  store : BotState
  commands : List (String × Cmd)
  pending : List (Nat × Cmd)
  nextSubId : Nat
  outbox : List String
  results : List (String × List (String × Value))
  hasAccess : Bool

/-- The store-subscriber pass run synchronously by every zustand `set`.
Each pending `exec` subscription receives the state of the triggering `set`
(`setState`); when the flow flag is down and the top frame is its command it
unsubscribes, parses the full responses against the command's
`inputSchema`, resolves the `exec` promise with the result and pops the
frame.  A `ZodError` from the parse propagates out of `set` to the caller,
modelled by the `true` flag.  The `popCommand` performed inside a firing
subscriber triggers a nested notification pass in the source; that pass can
never fire anyone (after the pop either the flow flag is up again, or the
stack is empty and matches no subscriber), so it is not re-run here. -/
def runSubs (setState : BotState) : List (Nat × Cmd) → Machine → Machine × Bool
  | [], m => (m, false)
  | (id, c) :: rest, m =>
    if !setState.isInPromptFlow && (topName setState == some c.name) then
      let m1 := { m with pending := m.pending.filter (fun e => e.1 != id) }
      match parseShape c.shape setState.responses with
      | none => (m1, true)
      | some answers =>
        let m2 := { m1 with
          results := m1.results ++ [(c.name, answers)],
          store := popCommand m1.store }
        runSubs setState rest m2
    else runSubs setState rest m

/-- A zustand `set`: install the new store state, then notify the
subscribers with it.  Returns the machine together with a flag telling
whether a subscriber threw a `ZodError` out of the `set`. -/
def applySet (m : Machine) (st : BotState) : Machine × Bool :=
  let m1 := { m with store := st }
  runSubs st m1.pending m1

/-- `finishPromptFlow` of `bot.ts`: logs the responses (not modelled) and
resets the flow.  The reset `set` leaves an empty stack, which matches no
subscriber, so its notification pass cannot fire or throw. -/
def finishPromptFlow (m : Machine) : Machine :=
  (applySet m resetFlow).1

/-- `sendNextPrompt` of `bot.ts`: sends the text of the prompt under the
cursor, or finishes the flow when there is no active command, no cursor, or
the cursor is past the prompt list. -/
def sendNextPrompt (m : Machine) : Machine :=
  match topCmd m.store, m.store.currentPromptIndex with
  | some currentCommand, some idx =>
    match currentCommand.prompts[idx]? with
    | some p => { m with outbox := m.outbox ++ [p.text] }
    | none => finishPromptFlow m
  | _, _ => finishPromptFlow m

/-- `stopCurrentCommand` of `bot.ts`.  Note that the source re-reads the
pre-pop state snapshot (`botStore`) for the inner length check, so after a
successful pop it always goes on to `sendNextPrompt` (which itself re-reads
the fresh state and finishes the flow when the stack became empty).  The
pop's own `set` cannot fire a subscriber: after it either the flow flag is
up (depth > 1) or the stack is empty. -/
def stopCurrentCommand (m : Machine) : Machine :=
  let snapshot := m.store
  if snapshot.commandStack.length > 0 then
    let m1 := (applySet m (popCommand m.store)).1
    let m2 := { m1 with outbox := m1.outbox ++ [commandStoppedMsg] }
    if snapshot.commandStack.length > 0 then sendNextPrompt m2 else m2
  else { m with outbox := m.outbox ++ [noActiveCommandMsg] }

/-- `sendHelpForCurrentPrompt` of `bot.ts`. -/
def sendHelpForCurrentPrompt (m : Machine) : Machine :=
  match topCmd m.store, m.store.currentPromptIndex with
  | some currentCommand, some idx =>
    match currentCommand.prompts[idx]? with
    | some p =>
      match p.help with
      | some h => { m with outbox := m.outbox ++ [h] }
      | none => { m with outbox := m.outbox ++ [noHelpMsg] }
    | none => { m with outbox := m.outbox ++ [noHelpMsg] }
  | _, _ => m

/-- `sendHelpMessage` of `bot.ts`: the command listing shown outside a
flow, restricted to commands the user may see. -/
def sendHelpMessage (m : Machine) : Machine :=
  let visible := m.commands.filter (fun e => e.2.isPublic || m.hasAccess)
  let body := String.join (visible.map (fun e => "*/" ++ e.2.name ++ "* - " ++ e.2.description ++ "\n"))
  { m with outbox := m.outbox ++
      ["*Available Commands:*\n\n" ++ body ++
       "\nDuring a command:\n• Type /help for prompt-specific help\n• Type /stop to stop the current command"] }

/-- `handlePromptResponse` of `bot.ts`: parse the raw reply with the
current prompt's parser, validate it against the field schema
`inputSchema.shape[key]`, then record it and advance the cursor.  A missing
field schema makes `schema.parse` throw a `TypeError`, caught by the
generic branch; a failed validation throws a `ZodError`, caught by the
invalid-input branch with no state change.  The two `set`s (`gotResponse`,
`nextPrompt`) notify the subscribers; a `ZodError` thrown by a subscriber's
aggregate parse lands in the same catch. -/
def handlePromptResponse (m : Machine) (raw : String) : Machine :=
  if raw == "" then m
  else
    match topCmd m.store, m.store.currentPromptIndex with
    | some currentCommand, some idx =>
      match currentCommand.prompts[idx]? with
      | none => m
      | some currentPrompt =>
        let parsedValue := parseOf currentPrompt raw
        match mapGet currentCommand.shape currentPrompt.key with
        | none => { m with outbox := m.outbox ++ [unexpectedErrorMsg] }
        | some schemaCheck =>
          if schemaCheck parsedValue then
            let s1 := applySet m (gotResponse m.store currentPrompt.key parsedValue)
            if s1.2 then { s1.1 with outbox := s1.1.outbox ++ [invalidInputMsg] }
            else
              let s2 := applySet s1.1 (nextPrompt s1.1.store)
              if s2.2 then { s2.1 with outbox := s2.1.outbox ++ [invalidInputMsg] }
              else sendNextPrompt s2.1
          else { m with outbox := m.outbox ++ [invalidInputMsg] }
    | _, _ => m

/-- Synchronous outcome of `Bot.exec`: the two errors thrown before any
state change. -/
inductive ExecError where
  | commandNotFound
  | unauthorized
deriving DecidableEq, Repr

/-- `Bot.exec`: look the command up, apply the private-access guard, push a
frame, announce the title, subscribe the finalizer, and send the first
prompt.  The push's `set` raises the flow flag, so its notification pass
cannot fire a subscriber. -/
def exec (m : Machine) (commandName : String) : Except ExecError Machine :=
  match mapGet m.commands commandName with
  | none => .error .commandNotFound
  | some command =>
    if !command.isPublic && !m.hasAccess then .error .unauthorized
    else
      let m1 := (applySet m (pushCommand m.store command)).1
      let m2 :=
        if command.title == "" then m1
        else { m1 with outbox := m1.outbox ++ ["*" ++ command.title ++ "*"] }
      let m3 := { m2 with
        pending := m2.pending ++ [(m2.nextSubId, command)],
        nextSubId := m2.nextSubId + 1 }
      .ok (sendNextPrompt m3)

/-- `handleMessage` of `bot.ts`: route an inbound text (empty texts are
dropped by the `!message.text` guard) to the in-flow control tokens or the
prompt handler, else to the help listing, a registered command name, or the
unrecognized-command reply.  Note the control-token tests use the trimmed
lowercased text while the prompt handler receives the raw text. -/
def handleMessage (m : Machine) (raw : String) : Machine :=
  if raw == "" then m
  else
    let text := jsTrim raw
    if m.store.isInPromptFlow then
      if jsToLower text == "/help" then sendHelpForCurrentPrompt m
      else if jsToLower text == "/stop" then stopCurrentCommand m
      else handlePromptResponse m raw
    else if jsToLower text == "/help" then sendHelpMessage m
    else
      match mapGet m.commands (jsToLower text) with
      | some command =>
        if command.isPublic || m.hasAccess then
          match exec m text.toLower with
          | .ok m2 => m2
          | .error _ => { m with outbox := m.outbox ++ [execErrorMsg] }
        else { m with outbox := m.outbox ++ [noPermissionMsg] }
      | none => { m with outbox := m.outbox ++ [unrecognizedMsg] }

/-- Feed a sequence of inbound messages to the bot. -/
def runMessages (m : Machine) : List String → Machine
  | [] => m
  | r :: rest => runMessages (handleMessage m r) rest

/-- A freshly constructed bot with a given registry: initial store, no
pending `exec`, nothing sent, `userHasPrivateAccess` as stubbed in the
source (`return true`). -/
def mkMachine (reg : List (String × Cmd)) : Machine :=
  { store := initState, commands := reg, pending := [], nextSubId := 0,
    outbox := [], results := [], hasAccess := true }

/-- The registry of the application entry point. -/
def appRegistry : List (String × Cmd) :=
  [("customer_info", customerInfoCmd), ("order_item", orderItemCmd),
   ("special_order", specialOrderCmd)]

/-- Machine after `exec "special_order"` on a fresh bot. -/
def c3Machine1 : Machine :=
  match exec (mkMachine appRegistry) "special_order" with
  | .ok m => m
  | .error _ => mkMachine appRegistry

/-- ... then a nested `exec "customer_info"` (as the `customerInfo`
prompt's delegating parser performs). -/
def c3Machine2 : Machine :=
  match exec c3Machine1 "customer_info" with
  | .ok m => m
  | .error _ => c3Machine1

/-- ... then a valid reply to the nested command's first prompt. -/
def c3Machine3 : Machine := handleMessage c3Machine2 "Alice"

/-- ... then the stop token. -/
def c3Machine4 : Machine := handleMessage c3Machine3 "/stop"

/-- A command whose aggregate schema declares a field (`b`) no prompt
collects: the schema/prompt mismatch that triggers the aggregate-parse
failure at finalize time. -/
def mismatchedCmd : Cmd :=
  { name := "mismatched", description := "d", title := "Mismatched", isPublic := true,
    shape := [("a", isStrMin 1), ("b", isStrMin 1)],
    prompts := [{ key := "a", text := "ask a" }] }

/-- Machine after `exec "mismatched"` on a fresh bot. -/
def c7Machine1 : Machine :=
  match exec (mkMachine [("mismatched", mismatchedCmd)]) "mismatched" with
  | .ok m => m
  | .error _ => mkMachine [("mismatched", mismatchedCmd)]

/-- ... then a reply that passes the per-field validation, driving the
finalizer into the failing aggregate parse. -/
def c7Machine2 : Machine := handleMessage c7Machine1 "x"

/-- A registered command with an empty prompt list. -/
def noopCmd : Cmd :=
  { name := "noop", description := "d", title := "Noop", isPublic := true,
    shape := [], prompts := [] }

/-- Machine after `exec "noop"` on a fresh bot. -/
def c1Machine1 : Machine :=
  match exec (mkMachine [("noop", noopCmd)]) "noop" with
  | .ok m => m
  | .error _ => mkMachine [("noop", noopCmd)]

/-! The first checkbox (multi-choice) prompt handler of `prompt.ts`
(the `PromptHandler` whose `ask` takes `currentAnswers` and checks the
`done` token before parsing). Only checkbox prompts are embedded — the
claim under verification quantifies over MultiChoice prompts, and for a
checkbox prompt the other `parseAnswer` branches are dead code. -/
namespace PromptV1

/-- A checkbox prompt: key, message, optional help, choices. -/
structure CheckboxPrompt where
  name : String
  message : String
  help : Option String := none
  choices : List String

/-- Result of one inbound message while the prompt listens:
either the promise resolves, or the handler keeps listening with the
updated accumulator (`currentAnswers[name]`, absent until the first
selection). -/
inductive Step where
  | resolved (v : Option (List String))
  | next (acc : Option (List String))

/-- One turn of the `messageHandler` closure inside `ask` for a checkbox
prompt: `help` (with help text present) re-prompts; `done` resolves with
`currentAnswers[name]` as it stands (absent when nothing was accumulated,
and the terminator itself is not parsed); any other text is parsed as
`[text]` and concatenated onto the accumulator. -/
def onMessage (p : CheckboxPrompt) (acc : Option (List String)) (input : String) : Step :=
  let userInput := jsToLower input
  if userInput == "help" && p.help.isSome then .next acc
  else if userInput == "done" then .resolved acc
  else .next (some (acc.getD [] ++ [input]))

/-- Run `ask` over a list of inbound messages: `some v` when the promise
resolved with `v`, `none` when the stream ended while still listening. -/
def ask (p : CheckboxPrompt) : Option (List String) → List String →
    Option (Option (List String))
  | _, [] => none
  | acc, input :: rest =>
    match onMessage p acc input with
    | .resolved v => some v
    | .next acc2 => ask p acc2 rest

end PromptV1

/-! The third prompt handler of `prompt.ts` (the variant with `validate`
and `transform` support), again restricted to checkbox prompts.  Its
`ask` keeps the whole `currentAnswers` map; for a checkbox prompt the
values it touches are string arrays. -/
namespace PromptV3

/-- The `currentAnswers` map as used by a checkbox prompt. -/
abbrev CAnswers := List (String × List String)

/-- A checkbox prompt of the validate/transform variant. -/
structure CheckboxPrompt where
  name : String
  message : String
  help : Option String := none
  choices : List String
  validate : Option (List String → CAnswers → Bool) := none
  transform : Option (List String → CAnswers → List String) := none

/-- Result of one inbound message: resolution with the final value (and
the answers map at that point), or keep listening with the updated map. -/
inductive Step where
  | resolved (answers : CAnswers) (v : List String)
  | next (answers : CAnswers)

/-- One turn of the `messageHandler` closure inside the validate/transform
`ask` for a checkbox prompt.  Unlike the first variant there is no early
terminator check: every message — the terminator included — is parsed as
`[text]`, validated, transformed and concatenated onto
`currentAnswers[name]`; only then, if the lowercased text is the
terminator, does the handler resolve with `currentAnswers[name]`. -/
def onMessage (p : CheckboxPrompt) (answers : CAnswers) (input : String) : Step :=
  if jsToLower input == "help" && p.help.isSome then .next answers
  else
    let parsed := [input]
    if (match p.validate with
        | some f => !f parsed answers
        | none => false) then .next answers
    else
      let answer :=
        match p.transform with
        | some g => g parsed answers
        | none => parsed
      let acc2 := (mapGet answers p.name).getD [] ++ answer
      let answers2 := insertMap answers p.name acc2
      if jsToLower input != "done" then .next answers2
      else .resolved answers2 acc2

/-- Run this variant's `ask` over a list of inbound messages: `some v`
when the promise resolved with `v`. -/
def ask (p : CheckboxPrompt) : CAnswers → List String → Option (List String)
  | _, [] => none
  | answers, input :: rest =>
    match onMessage p answers input with
    | .resolved _ v => some v
    | .next answers2 => ask p answers2 rest

end PromptV3

/-- A concrete checkbox prompt for the first handler. -/
def toppingsPrompt1 : PromptV1.CheckboxPrompt :=
  { name := "toppings", message := "Pick toppings", choices := ["Cheese", "Olives"] }

/-- A concrete checkbox prompt for the validate/transform handler. -/
def toppingsPrompt3 : PromptV3.CheckboxPrompt :=
  { name := "toppings", message := "Pick toppings", choices := ["Cheese", "Olives"] }

/-! The command dispatcher of `commandHandler.ts` with its per-user
cooldown bookkeeping. -/
namespace CommandHandlerM

/-- A prompt as far as `executeCommand` is concerned: it is asked in
sequence and its answer stored under `prompt.name`. -/
structure CHPrompt where
  name : String

/-- A command of `commandHandler.ts`. -/
structure CHCommand where
  name : String
  description : String
  category : String
  isPrivate : Bool
  prompts : List CHPrompt

/-- Dispatcher state: `lastCommandTimestamp`, one record per user id
(`Map<number, {commandName, timestamp}>`). -/
structure CHState where
  lastCommandTimestamp : List (Nat × (String × Int)) := []

/-- `cooldownPeriod` (1 minute, in milliseconds). -/
def cooldownPeriod : Int := 60000

/-- `isOnCooldown`: the user's last record must exist, name the same
command, and be younger than the cooldown period. -/
def isOnCooldown (st : CHState) (userId : Nat) (commandName : String) (now : Int) : Bool :=
  match mapGet st.lastCommandTimestamp userId with
  | none => false
  | some (cn, ts) => cn == commandName && decide (now - ts < cooldownPeriod)

/-- Observable outcome of `executeCommand`: the undefined-user error, the
cooldown rejection (nothing asked, handler not invoked), or a full run
(all prompts asked in order, then the handler invoked with the answers). -/
inductive Outcome where
  | noUser
  | cooldownRejected
  | ran (asked : List String)
deriving DecidableEq, Repr

/-- `executeCommand` of `commandHandler.ts`: reject undefined users,
reject users on cooldown with no state change, otherwise record the
invocation timestamp, ask every prompt in order and invoke the handler. -/
def executeCommand (st : CHState) (command : CHCommand) (userId : Option Nat)
    (now : Int) : CHState × Outcome :=
  match userId with
  | none => (st, .noUser)
  | some uid =>
    if isOnCooldown st uid command.name now then (st, .cooldownRejected)
    else
      ({ lastCommandTimestamp := insertMap st.lastCommandTimestamp uid (command.name, now) },
       .ran (command.prompts.map CHPrompt.name))

/-- A concrete command for the cooldown witness. -/
def greetCmd : CHCommand :=
  { name := "greet", description := "Say hi", category := "General",
    isPrivate := false, prompts := [{ name := "who" }] }

end CommandHandlerM

/-- A fresh bot over the application registry but without private access:
`userHasPrivateAccess` replaced by `false`, as the source's placeholder
comment intends for unauthorized users. -/
def noAccessMachine : Machine :=
  { mkMachine appRegistry with hasAccess := false }

/-- The machine awaiting `customer_info`'s first prompt (`name`). -/
def c5Machine : Machine :=
  match exec (mkMachine appRegistry) "customer_info" with
  | .ok m => m
  | .error _ => mkMachine appRegistry

/-- The machine awaiting `order_item`'s first prompt. -/
def c5OrderMachine : Machine :=
  match exec (mkMachine appRegistry) "order_item" with
  | .ok m => m
  | .error _ => mkMachine appRegistry

/-- The machine on `order_item`'s final prompt (`quantity`), with
`productName` already answered — the spec's §8 recovery scenario. -/
def c5QtyMachine : Machine := handleMessage c5OrderMachine "Widget"

/-- A reply the dispatcher accepts for a prompt: non-empty, not a control
token, and parsed to a value passing the prompt's field schema. -/
def GoodReply (cmd : Cmd) (p : Prompt) (r : String) : Prop :=
  (r == "") = false ∧ (jsToLower (jsTrim r) == "/help") = false ∧
  (jsToLower (jsTrim r) == "/stop") = false ∧
  ∃ chk, mapGet cmd.shape p.key = some chk ∧ chk (parseOf p r) = true

/-- The answers the engine collects for a prompt list answered in order:
each key bound to its reply's parsed value, in prompt order. -/
def answersOf (ps : List Prompt) (rs : List String) : List (String × Value) :=
  (ps.zip rs).map (fun pr => (pr.1.key, parseOf pr.1 pr.2))

/-- The bot mid-flow on a single top-level command: frame pushed, cursor at
`k`, answers `resp` collected, the command's own `exec` finalizer the
single subscription. -/
def midMachine (reg : List (String × Cmd)) (acc : Bool)
    (res : List (String × List (String × Value))) (sid n : Nat)
    (cmd : Cmd) (k : Nat) (resp : List (String × Value)) (ob : List String) : Machine :=
  { store := { commandStack := [cmd], currentPromptIndex := some k,
               responses := resp, isInPromptFlow := true },
    commands := reg, pending := [(sid, cmd)], nextSubId := n,
    outbox := ob, results := res, hasAccess := acc }

/-- C6 counterexample: `nextPrompt` on the last prompt of the top command
clears `isInPromptFlow` while leaving the command on the stack, so the
claimed invariant "stack non-empty iff in a prompt flow" is not preserved
by every operation: it holds in `c6State` and fails right after
`nextPrompt`. -/
theorem C6_counterexample :
    c6State.isInPromptFlow = true ∧ c6State.commandStack.length = 1 ∧
    (nextPrompt c6State).isInPromptFlow = false ∧
    (nextPrompt c6State).commandStack.length = 1 := by
  refine ⟨rfl, rfl, ?_, ?_⟩ <;> rfl

/-- C6 amended: `pushCommand`, `popCommand` and `resetFlow` establish the
invariant "stack non-empty iff in a prompt flow" outright, `gotResponse`
preserves it, but `nextPrompt` preserves only the direction "in a prompt
flow implies the stack is non-empty" (exhausting the prompt list clears the
flag while the frame is still stacked, until the finalizer pops or resets). -/
theorem C6_store_invariant :
    (∀ st c, storeInv (pushCommand st c)) ∧
    (∀ st, storeInv (popCommand st)) ∧
    (∀ st k v, storeInv st → storeInv (gotResponse st k v)) ∧
    storeInv resetFlow ∧
    (∀ st, weakStoreInv st → weakStoreInv (nextPrompt st)) := by
  refine ⟨?_, ?_, ?_, ?_, ?_⟩
  · intro st c
    simp [storeInv, pushCommand]
  · intro st
    constructor
    · intro h
      have hlen : st.commandStack.dropLast ≠ [] := h
      have h2 : 0 < st.commandStack.dropLast.length := List.length_pos.mpr hlen
      rw [List.length_dropLast] at h2
      simp [popCommand]
      omega
    · intro h
      have h2 : st.commandStack.length > 1 := by
        by_contra hc
        simp [popCommand, hc] at h
      have h3 : 0 < st.commandStack.dropLast.length := by
        rw [List.length_dropLast]; omega
      exact List.length_pos.mp h3
  · intro st k v h
    simpa [storeInv, gotResponse] using h
  · simp [storeInv, resetFlow, initState]
  · intro st h
    unfold nextPrompt
    cases hlast : st.commandStack.getLast? with
    | none => simpa [hlast] using h
    | some c =>
      cases hidx : st.currentPromptIndex with
      | none => simpa [hlast, hidx] using h
      | some i =>
        intro _
        have : st.commandStack ≠ [] := by
          intro he
          rw [he] at hlast
          simp at hlast
        simpa using this

/-- Witness for `C6_store_invariant`: its conditional parts applied to the
initial state and to `c6State`. -/
theorem C6_store_invariant_witness :
    storeInv (gotResponse initState "k" Value.vnull) ∧
    weakStoreInv (nextPrompt c6State) := by
  constructor
  · exact C6_store_invariant.2.2.1 initState "k" Value.vnull
      (by simp [storeInv, initState])
  · exact C6_store_invariant.2.2.2.2 c6State
      (by intro _; simp [c6State])

/-- C10: `pushCommand` always resets the single shared responses map and
cursor; `popCommand` at pre-pop depth greater than 1 keeps the current
(child's) responses and cursor; consequently pushing a nested command
erases every answer the parent had collected from the store. -/
theorem C10_single_shared_responses :
    (∀ st c, (pushCommand st c).responses = [] ∧
      (pushCommand st c).currentPromptIndex = some 0) ∧
    (∀ st, st.commandStack.length > 1 →
      (popCommand st).responses = st.responses ∧
      (popCommand st).currentPromptIndex = st.currentPromptIndex) ∧
    (∀ st c k v, mapGet st.responses k = some v →
      mapGet (pushCommand st c).responses k = none) := by
  refine ⟨fun st c => ⟨rfl, rfl⟩, fun st h => ?_, fun st c k v _ => rfl⟩
  simp [popCommand, h]

/-- Witness for `C10_single_shared_responses`: a depth-2 stack keeps its
responses and cursor across `popCommand`, and a parent answer disappears
from the store on `pushCommand`. -/
theorem C10_single_shared_responses_witness :
    (popCommand c10DeepState).responses = [("k", Value.vstr "x")] ∧
    mapGet (pushCommand c10ParentState c6Cmd).responses "k" = none := by
  constructor
  · exact (C10_single_shared_responses.2.1 _ (by decide)).1
  · exact C10_single_shared_responses.2.2 _ c6Cmd "k" (Value.vstr "x") (by rfl)

/-- C2: evaluating the store at the failing input.  When the parent
`special_order` frame has collected an answer and sits at its second prompt,
pushing the nested `order_item` frame resets the single shared responses map
and cursor, erasing the parent's collected `customerInfo` answer — so the
parent's answers and cursor cannot survive a nested run, contrary to the
claim.  (`popCommand` afterwards retains whatever responses and cursor the
child had, not the parent's.) -/
theorem C2_nested_push_erases_parent_answers :
    (pushCommand c2ParentMidState orderItemCmd).responses = [] ∧
    (pushCommand c2ParentMidState orderItemCmd).currentPromptIndex = some 0 ∧
    mapGet (pushCommand c2ParentMidState orderItemCmd).responses "customerInfo" = none ∧
    mapGet c2ParentMidState.responses "customerInfo"
      = some (Value.vstr "Jane <jane@acme.test>") := by
  exact ⟨rfl, rfl, rfl, rfl⟩

/-- A subscriber pass can fire only when the triggering `set` lowered the
flow flag with a frame still on the stack; with the flag up or the stack
empty every guard is false and the pass is a no-op. -/
lemma runSubs_no_fire (setState : BotState)
    (h : setState.isInPromptFlow = true ∨ setState.commandStack = []) :
    ∀ (subs : List (Nat × Cmd)) (m : Machine), runSubs setState subs m = (m, false) := by
  intro subs
  induction subs with
  | nil => intro m; rfl
  | cons e rest ih =>
    intro m
    obtain ⟨id, c⟩ := e
    have hcond : (!setState.isInPromptFlow && (topName setState == some c.name)) = false := by
      rcases h with h1 | h2
      · rw [h1]; rfl
      · have hn : topName setState = none := by
          simp [topName, topCmd, h2]
        rw [hn]
        cases setState.isInPromptFlow <;> rfl
    simp only [runSubs, hcond, Bool.false_eq_true, if_false]
    exact ih m

/-- `applySet` under the same conditions: the state is installed, nobody
fires, nothing is thrown. -/
lemma applySet_no_fire (m : Machine) (st : BotState)
    (h : st.isInPromptFlow = true ∨ st.commandStack = []) :
    applySet m st = ({ m with store := st }, false) := by
  unfold applySet
  exact runSubs_no_fire st h _ _

/-- `applySet` with the flow flag up: nobody fires. -/
lemma applySet_of_inflow (m : Machine) (st : BotState)
    (h : st.isInPromptFlow = true) :
    applySet m st = ({ m with store := st }, false) :=
  applySet_no_fire m st (Or.inl h)

/-- `applySet` with an empty stack: nobody matches. -/
lemma applySet_of_emptyStack (m : Machine) (st : BotState)
    (h : st.commandStack = []) :
    applySet m st = ({ m with store := st }, false) :=
  applySet_no_fire m st (Or.inr h)

/-- C3 counterexample: in the concrete nested trace (`special_order` at
its first prompt delegates to `customer_info`, whose first prompt is
answered before `stop` is sent) the pop keeps the single shared cursor and
responses, so the parent resumes at the child's cursor (index 1, prompt
"Order Items") instead of its own position when the nested command started
(index 0), and the child's partial answers are retained instead of
discarded. -/
theorem C3_counterexample :
    c3Machine1.store.currentPromptIndex = some 0 ∧
    c3Machine4.store.commandStack.length = 1 ∧
    c3Machine4.store.currentPromptIndex = some 1 ∧
    c3Machine4.store.currentPromptIndex ≠ c3Machine1.store.currentPromptIndex ∧
    c3Machine4.store.responses = [("name", Value.vstr "Alice")] ∧
    c3Machine4.store.responses ≠ [] ∧
    c3Machine4.outbox.getLast? = some "Order Items" := by
  decide

/-- C3 amended: `stop` inside a flow pops exactly one frame atomically; at
depth 1 the chat returns to `Idle`, while at depth greater than 1 the
parent frame resumes — but with the single shared cursor and responses
left exactly as the popped child had them, so the re-sent prompt is the
parent's prompt at the child's cursor index and the child's partial
answers are retained rather than discarded. -/
theorem C3_stop_pops_one_frame (m : Machine)
    (hflow : m.store.isInPromptFlow = true) :
    (handleMessage m "/stop" = stopCurrentCommand m) ∧
    (m.store.commandStack.length = 1 →
      stopCurrentCommand m =
        { m with store := initState, outbox := m.outbox ++ [commandStoppedMsg] }) ∧
    (∀ parent i p, 1 < m.store.commandStack.length →
      m.store.commandStack.dropLast.getLast? = some parent →
      m.store.currentPromptIndex = some i →
      parent.prompts[i]? = some p →
      stopCurrentCommand m =
        { m with
          store := { commandStack := m.store.commandStack.dropLast,
                     currentPromptIndex := some i,
                     responses := m.store.responses,
                     isInPromptFlow := true },
          outbox := m.outbox ++ [commandStoppedMsg, p.text] }) := by
  refine ⟨?_, ?_, ?_⟩
  · have h0 : (("/stop" : String) == "") = false := by decide
    have h1 : (jsToLower (jsTrim "/stop") == "/help") = false := by decide
    have h2 : (jsToLower (jsTrim "/stop") == "/stop") = true := by decide
    simp [handleMessage, h0, h1, h2, hflow]
  · intro hlen
    have hd : m.store.commandStack.dropLast = [] := by
      apply List.eq_nil_of_length_eq_zero
      rw [List.length_dropLast, hlen]
    have hpop : popCommand m.store = initState := by
      simp [popCommand, initState, hlen, hd]
    have hgt : m.store.commandStack.length > 0 := by omega
    simp only [stopCurrentCommand, hgt, if_true, hpop]
    rw [applySet_of_emptyStack _ _ rfl]
    simp [sendNextPrompt, topCmd, initState, finishPromptFlow, resetFlow,
      applySet_of_emptyStack]
  · intro parent i p hlen hparent hidx hp
    have hpop : popCommand m.store =
        { commandStack := m.store.commandStack.dropLast,
          currentPromptIndex := some i,
          responses := m.store.responses,
          isInPromptFlow := true } := by
      simp [popCommand, hlen, hidx]
    have hgt : m.store.commandStack.length > 0 := by omega
    simp only [stopCurrentCommand, hgt, if_true, hpop]
    rw [applySet_of_inflow _ _ rfl]
    simp [sendNextPrompt, topCmd, hparent, hp]

/-- Witness for `C3_stop_pops_one_frame`: its depth-2 branch applied to
the concrete nested trace right before the stop token. -/
theorem C3_stop_pops_one_frame_witness :
    stopCurrentCommand c3Machine3 =
      { c3Machine3 with
        store := { commandStack := c3Machine3.store.commandStack.dropLast,
                   currentPromptIndex := some 1,
                   responses := c3Machine3.store.responses,
                   isInPromptFlow := true },
        outbox := c3Machine3.outbox ++ [commandStoppedMsg, "Order Items"] } := by
  exact (C3_stop_pops_one_frame c3Machine3 (by decide)).2.2 specialOrderCmd 1
    { key := "items", text := "Order Items", help := some "Number of items." }
    (by decide) rfl rfl rfl

/-- C7: evaluating the engine at the failing input.  For the command
`mismatched` (aggregate schema declares field `b` that no prompt collects)
a reply passing the per-field validation drives the finalizer into an
aggregate-parse failure; the thrown `ZodError` lands in the reply
handler's invalid-input catch (a user-facing input error), the frame is
never popped, the `exec` promise never resolves (its subscription is
already removed), and the chat is left with a stacked frame outside any
prompt flow — contradicting "reported generically, frame still finalized
and popped, never stuck". -/
theorem C7_aggregate_failure_leaves_frame_stuck :
    c7Machine2.store.commandStack.length = 1 ∧
    c7Machine2.store.isInPromptFlow = false ∧
    c7Machine2.results = [] ∧
    c7Machine2.pending.length = 0 ∧
    c7Machine2.outbox.getLast? = some invalidInputMsg := by
  decide

/-- C1 counterexample: for the registered command `noop`, whose prompt
list is empty, "one valid reply per prompt" is the empty reply sequence —
yet `exec` alone already resets the flow without ever resolving: no
finalized answers are produced (`results = []`) and the finalizer
subscription stays pending forever, so the claim fails for prompt-less
commands. -/
theorem C1_counterexample :
    c1Machine1.store.commandStack.length = 0 ∧
    c1Machine1.store.isInPromptFlow = false ∧
    c1Machine1.results = [] ∧
    c1Machine1.pending.length = 1 := by
  decide

/-- C8: the private-access guard of `exec` (with the stubbed
`userHasPrivateAccess` abstracted into `hasAccess`).  A private command
invoked without privilege fails with the unauthorized error before any
state change — the guard precedes `pushCommand`, so no frame is pushed —
while the same invocation with privilege pushes a frame (cursor 0, empty
answers), announces the title and sends the first prompt. -/
theorem C8_private_access (m : Machine) (nm : String) (c : Cmd) (p0 : Prompt)
    (hc : mapGet m.commands nm = some c) (hpriv : c.isPublic = false)
    (hp0 : c.prompts[0]? = some p0) :
    (m.hasAccess = false → exec m nm = .error .unauthorized) ∧
    (m.hasAccess = true → exec m nm = .ok
      { m with
        store := pushCommand m.store c,
        pending := m.pending ++ [(m.nextSubId, c)],
        nextSubId := m.nextSubId + 1,
        outbox := (m.outbox ++ (if c.title == "" then [] else ["*" ++ c.title ++ "*"]))
          ++ [p0.text] }) := by
  constructor
  · intro hacc
    unfold exec
    rw [hc]
    simp [hpriv, hacc]
  · intro hacc
    unfold exec
    rw [hc]
    simp only [hpriv, hacc, Bool.not_false, Bool.not_true, Bool.and_false,
      Bool.false_eq_true, if_false]
    rw [applySet_of_inflow _ _ rfl]
    cases htitle : (c.title == "") with
    | true =>
      simp [sendNextPrompt, topCmd, pushCommand, hp0, htitle, hacc]
    | false =>
      simp [sendNextPrompt, topCmd, pushCommand, hp0, htitle, hacc]

/-- Witness for `C8_private_access`: the private `customer_info` command is
rejected without privilege and proceeds with it. -/
theorem C8_private_access_witness :
    exec noAccessMachine "customer_info" = .error .unauthorized ∧
    exec (mkMachine appRegistry) "customer_info" = .ok
      { mkMachine appRegistry with
        store := pushCommand (mkMachine appRegistry).store customerInfoCmd,
        pending := [(0, customerInfoCmd)],
        nextSubId := 1,
        outbox := ["*Customer Info*", "Customer Name"] } := by
  constructor
  · exact (C8_private_access noAccessMachine "customer_info" customerInfoCmd
      { key := "name", text := "Customer Name", help := some "At least 2 characters." }
      rfl rfl rfl).1 rfl
  · exact (C8_private_access (mkMachine appRegistry) "customer_info" customerInfoCmd
      { key := "name", text := "Customer Name", help := some "At least 2 characters." }
      rfl rfl rfl).2 rfl

/-- In-flow routing: a non-empty text that is neither control token goes to
the prompt handler. -/
lemma handleMessage_in_flow (m : Machine) (r : String)
    (hflow : m.store.isInPromptFlow = true)
    (hr0 : (r == "") = false)
    (hr1 : (jsToLower (jsTrim r) == "/help") = false)
    (hr2 : (jsToLower (jsTrim r) == "/stop") = false) :
    handleMessage m r = handlePromptResponse m r := by
  simp [handleMessage, hr0, hr1, hr2, hflow]

/-- A reply failing the field validation only emits the invalid-input
report: no store `set` happens at all. -/
lemma handlePromptResponse_invalid (m : Machine) (cmd : Cmd) (i : Nat) (p : Prompt)
    (chk : Value → Bool) (r : String)
    (hr0 : (r == "") = false)
    (htop : topCmd m.store = some cmd)
    (hidx : m.store.currentPromptIndex = some i)
    (hp : cmd.prompts[i]? = some p)
    (hchk : mapGet cmd.shape p.key = some chk)
    (hbad : chk (parseOf p r) = false) :
    handlePromptResponse m r = { m with outbox := m.outbox ++ [invalidInputMsg] } := by
  simp [handlePromptResponse, hr0, htop, hidx, hp, hchk, hbad]

/-- A reply passing the field validation on a non-final prompt records the
validated value, advances the cursor and sends the next prompt. -/
lemma handlePromptResponse_valid_mid (m : Machine) (cmd : Cmd) (i : Nat)
    (p p2 : Prompt) (chk : Value → Bool) (r : String)
    (hflow : m.store.isInPromptFlow = true)
    (hr0 : (r == "") = false)
    (htop : topCmd m.store = some cmd)
    (hidx : m.store.currentPromptIndex = some i)
    (hp : cmd.prompts[i]? = some p)
    (hchk : mapGet cmd.shape p.key = some chk)
    (hgood : chk (parseOf p r) = true)
    (hnext : i + 1 < cmd.prompts.length)
    (hp2 : cmd.prompts[i + 1]? = some p2) :
    handlePromptResponse m r = { m with
      store := { m.store with
        responses := insertMap m.store.responses p.key (parseOf p r),
        currentPromptIndex := some (i + 1),
        isInPromptFlow := true },
      outbox := m.outbox ++ [p2.text] } := by
  have htop' : m.store.commandStack.getLast? = some cmd := htop
  have hnp : nextPrompt (gotResponse m.store p.key (parseOf p r)) =
      { m.store with
        responses := insertMap m.store.responses p.key (parseOf p r),
        currentPromptIndex := some (i + 1),
        isInPromptFlow := true } := by
    simp [nextPrompt, gotResponse, htop', hidx, hnext]
  simp only [handlePromptResponse, hr0, Bool.false_eq_true, if_false, htop, hidx, hp, hchk,
    hgood, if_true]
  rw [applySet_of_inflow _ _ (by simpa [gotResponse] using hflow)]
  simp only []
  rw [hnp, applySet_of_inflow _ _ rfl]
  simp [sendNextPrompt, topCmd, htop', hp2]

/-- C9: after a successful invocation of a command at time `t`, a second
invocation of the same command by the same user strictly within the
cooldown window is rejected — the dispatcher state is unchanged, no prompt
is asked and the handler is not invoked — while an invocation at or after
the window's end runs the full prompt sequence again. -/
theorem C9_cooldown_window (st : CommandHandlerM.CHState) (c : CommandHandlerM.CHCommand) (uid : Nat) (t t2 : Int)
    (hfree : CommandHandlerM.isOnCooldown st uid c.name t = false) :
    (CommandHandlerM.executeCommand st c (some uid) t).2
        = .ran (c.prompts.map CommandHandlerM.CHPrompt.name) ∧
    (t2 - t < CommandHandlerM.cooldownPeriod →
      CommandHandlerM.executeCommand
          (CommandHandlerM.executeCommand st c (some uid) t).1 c (some uid) t2
        = ((CommandHandlerM.executeCommand st c (some uid) t).1, .cooldownRejected)) ∧
    (CommandHandlerM.cooldownPeriod ≤ t2 - t →
      (CommandHandlerM.executeCommand
          (CommandHandlerM.executeCommand st c (some uid) t).1 c (some uid) t2).2
        = .ran (c.prompts.map CommandHandlerM.CHPrompt.name)) := by
  have hstep : CommandHandlerM.executeCommand st c (some uid) t =
      ({ lastCommandTimestamp := insertMap st.lastCommandTimestamp uid (c.name, t) },
       .ran (c.prompts.map CommandHandlerM.CHPrompt.name)) := by
    simp [CommandHandlerM.executeCommand, hfree]
  have hget : mapGet (insertMap st.lastCommandTimestamp uid (c.name, t)) uid
      = some (c.name, t) := by
    induction st.lastCommandTimestamp with
    | nil => simp [insertMap, mapGet]
    | cons e rest ih =>
      obtain ⟨k, v⟩ := e
      by_cases hk : k = uid
      · subst hk
        simp [insertMap, mapGet]
      · simp [insertMap, mapGet, hk, ih]
  refine ⟨by rw [hstep], ?_, ?_⟩
  · intro hin
    have hcd : CommandHandlerM.isOnCooldown
        { lastCommandTimestamp := insertMap st.lastCommandTimestamp uid (c.name, t) }
        uid c.name t2 = true := by
      simp [CommandHandlerM.isOnCooldown, hget, hin]
    rw [hstep]
    simp [CommandHandlerM.executeCommand, hcd]
  · intro hout
    have hcd : CommandHandlerM.isOnCooldown
        { lastCommandTimestamp := insertMap st.lastCommandTimestamp uid (c.name, t) }
        uid c.name t2 = false := by
      simp [CommandHandlerM.isOnCooldown, hget]
      omega
    rw [hstep]
    simp [CommandHandlerM.executeCommand, hcd]

/-- Witness for `C9_cooldown_window`: the `greet` command invoked at time 0
runs, is rejected 59999 ms later, and runs again from 60000 ms on. -/
theorem C9_cooldown_window_witness :
    (CommandHandlerM.executeCommand {} CommandHandlerM.greetCmd (some 7) 0).2
        = .ran ["who"] ∧
    CommandHandlerM.executeCommand
        (CommandHandlerM.executeCommand {} CommandHandlerM.greetCmd (some 7) 0).1
        CommandHandlerM.greetCmd (some 7) 59999
      = ((CommandHandlerM.executeCommand {} CommandHandlerM.greetCmd (some 7) 0).1,
         .cooldownRejected) ∧
    (CommandHandlerM.executeCommand
        (CommandHandlerM.executeCommand {} CommandHandlerM.greetCmd (some 7) 0).1
        CommandHandlerM.greetCmd (some 7) 60000).2
      = .ran ["who"] := by
  have h := C9_cooldown_window {} CommandHandlerM.greetCmd 7 0 59999 (by decide)
  have h2 := C9_cooldown_window {} CommandHandlerM.greetCmd 7 0 60000 (by decide)
  exact ⟨h.1, h.2.1 (by decide), h2.2.2 (by decide)⟩

/-- Updating a key makes it the key's binding. -/
lemma mapGet_insertMap {κ α : Type} [BEq κ] [LawfulBEq κ]
    (l : List (κ × α)) (k : κ) (v : α) :
    mapGet (insertMap l k v) k = some v := by
  induction l with
  | nil => simp [insertMap, mapGet]
  | cons e rest ih =>
    obtain ⟨k1, v1⟩ := e
    by_cases hk : k1 == k
    · simp [insertMap, mapGet, hk]
    · simp only [insertMap, hk, Bool.false_eq_true, if_false, mapGet]
      exact ih

/-- In the first checkbox handler, sending selections (none of which is a
control token) followed by the terminator resolves with the accumulator:
unchanged when no selection was made, otherwise extended by the selections
in order. -/
lemma PromptV1_ask_done (p : PromptV1.CheckboxPrompt) (sel : List String)
    (hsel : ∀ s ∈ sel, (jsToLower s == "done") = false ∧ (jsToLower s == "help") = false) :
    ∀ acc, PromptV1.ask p acc (sel ++ ["done"]) =
      some (if sel = [] then acc else some (acc.getD [] ++ sel)) := by
  have hdh : (jsToLower "done" == "help") = false := by decide
  have hdd : (jsToLower "done" == "done") = true := by decide
  induction sel with
  | nil =>
    intro acc
    simp only [List.nil_append, PromptV1.ask, PromptV1.onMessage, hdh, hdd,
      Bool.false_and, Bool.false_eq_true, if_false, if_true]
  | cons s rest ih =>
    intro acc
    obtain ⟨hd, hh⟩ := hsel s (by simp)
    have hrest : ∀ x ∈ rest, (jsToLower x == "done") = false ∧ (jsToLower x == "help") = false :=
      fun x hx => hsel x (by simp [hx])
    rw [List.cons_append]
    simp only [PromptV1.ask, PromptV1.onMessage, hd, hh,
      Bool.false_and, Bool.false_eq_true, if_false]
    rw [ih hrest (some (acc.getD [] ++ [s]))]
    cases rest with
    | nil => simp
    | cons r rs => simp

/-- In the validate/transform checkbox handler with no validator and no
transformer, the terminator message is itself parsed and appended before
resolution: the resolved value is the accumulated selections followed by
the terminator token. -/
lemma PromptV3_ask_done (p : PromptV3.CheckboxPrompt)
    (hval : p.validate = none) (htr : p.transform = none) (sel : List String)
    (hsel : ∀ s ∈ sel, (jsToLower s == "done") = false ∧ (jsToLower s == "help") = false) :
    ∀ answers, PromptV3.ask p answers (sel ++ ["done"]) =
      some ((mapGet answers p.name).getD [] ++ (sel ++ ["done"])) := by
  have hdh : (jsToLower "done" == "help") = false := by decide
  have hdd : (jsToLower "done" != "done") = false := by decide
  induction sel with
  | nil =>
    intro answers
    simp only [List.nil_append, PromptV3.ask, PromptV3.onMessage, hdh, hdd, hval, htr,
      Bool.false_and, Bool.false_eq_true, if_false]
  | cons s rest ih =>
    intro answers
    obtain ⟨hd, hh⟩ := hsel s (by simp)
    have hbne : (jsToLower s != "done") = true := by
      simp [bne, hd]
    have hrest : ∀ x ∈ rest, (jsToLower x == "done") = false ∧ (jsToLower x == "help") = false :=
      fun x hx => hsel x (by simp [hx])
    rw [List.cons_append]
    simp only [PromptV3.ask, PromptV3.onMessage, hh, hval, htr, hbne,
      Bool.false_and, Bool.false_eq_true, if_false, if_true]
    rw [ih hrest (insertMap answers p.name ((mapGet answers p.name).getD [] ++ [s]))]
    rw [mapGet_insertMap]
    simp

/-- C4 counterexample, at two explicit inputs.  In the validate/transform
checkbox handler, one accumulated selection ("Cheese") followed by the
terminator resolves to `["Cheese", "done"]` — the terminator is included,
contradicting "the ordered sequence of the N accumulated selections (the
terminator itself is not included)".  In the basic handler, the terminator
after zero selections resolves the absent accumulator (`undefined`), not
the empty sequence. -/
theorem C4_counterexample :
    PromptV3.ask toppingsPrompt3 [] ["Cheese", "done"] = some ["Cheese", "done"] ∧
    (["Cheese", "done"] : List String) ≠ ["Cheese"] ∧
    PromptV1.ask toppingsPrompt1 none ["done"] = some none ∧
    (none : Option (List String)) ≠ some [] := by
  refine ⟨by decide, by decide, by decide, by decide⟩

/-- C4 amended: the terminator always ends accumulation in both checkbox
handlers (for the validate/transform handler, provided no validator or
transformer intervenes), but the resolved value differs from the claim: in
the basic handler it is the accumulated selections when at least one was
made and the absent (`undefined`) accumulator otherwise, while in the
validate/transform handler the terminator itself is first appended, so the
value is the accumulated selections followed by the terminator token. -/
theorem C4_terminator_resolution (p1 : PromptV1.CheckboxPrompt)
    (p3 : PromptV3.CheckboxPrompt)
    (hval : p3.validate = none) (htr : p3.transform = none) (sel : List String)
    (hsel : ∀ s ∈ sel, (jsToLower s == "done") = false ∧ (jsToLower s == "help") = false) :
    PromptV1.ask p1 none (sel ++ ["done"]) =
      some (if sel = [] then none else some sel) ∧
    PromptV3.ask p3 [] (sel ++ ["done"]) = some (sel ++ ["done"]) := by
  constructor
  · rw [PromptV1_ask_done p1 sel hsel none]
    cases sel <;> simp
  · rw [PromptV3_ask_done p3 hval htr sel hsel []]
    simp [mapGet]

/-- Witness for `C4_terminator_resolution`: the concrete toppings prompts
with one selection. -/
theorem C4_terminator_resolution_witness :
    PromptV1.ask toppingsPrompt1 none (["Cheese"] ++ ["done"]) = some (some ["Cheese"]) ∧
    PromptV3.ask toppingsPrompt3 [] (["Cheese"] ++ ["done"]) = some (["Cheese"] ++ ["done"]) := by
  have h := C4_terminator_resolution toppingsPrompt1 toppingsPrompt3 rfl rfl ["Cheese"]
    (by decide)
  exact ⟨by rw [h.1]; rfl, h.2⟩

/-- Equal key images give a pointwise key relation. -/
lemma forall2_of_map_eq {α β γ : Type} (f : α → γ) (g : β → γ) :
    ∀ (l1 : List α) (l2 : List β), l1.map f = l2.map g →
      List.Forall₂ (fun a b => f a = g b) l1 l2 := by
  intro l1
  induction l1 with
  | nil =>
    intro l2 h
    cases l2 with
    | nil => exact List.Forall₂.nil
    | cons b bs => simp at h
  | cons a as ih =>
    intro l2 h
    cases l2 with
    | nil => simp at h
    | cons b bs =>
      simp only [List.map_cons, List.cons.injEq] at h
      exact List.Forall₂.cons h.1 (ih bs h.2)

/-- Inserting a fresh key appends the binding. -/
lemma insertMap_append {κ α : Type} [BEq κ] [LawfulBEq κ]
    (l : List (κ × α)) (k : κ) (v : α) (hk : k ∉ l.map Prod.fst) :
    insertMap l k v = l ++ [(k, v)] := by
  induction l with
  | nil => rfl
  | cons e rest ih =>
    obtain ⟨k1, v1⟩ := e
    simp only [List.map_cons, List.mem_cons, not_or] at hk
    have hne : (k1 == k) = false :=
      beq_eq_false_iff_ne.mpr fun he => hk.1 he.symm
    simp only [insertMap, hne, Bool.false_eq_true, if_false, List.cons_append,
      List.cons.injEq, true_and]
    exact ih hk.2

/-- Lookup skips an entry with a different key. -/
lemma mapGet_cons_ne {κ α : Type} [BEq κ] (k1 : κ) (v1 : α) (l : List (κ × α)) (k : κ)
    (h : (k1 == k) = false) : mapGet ((k1, v1) :: l) k = mapGet l k := by
  simp [mapGet, h]

/-- `answersOf` over matched-length appends. -/
lemma answersOf_append (done : List Prompt) (rsDone : List String)
    (h : done.length = rsDone.length) (p : Prompt) (r : String) :
    answersOf (done ++ [p]) (rsDone ++ [r]) =
      answersOf done rsDone ++ [(p.key, parseOf p r)] := by
  unfold answersOf
  rw [List.zip_append h]
  simp

/-- The keys of collected answers are the prompt keys, in order. -/
lemma answersOf_keys : ∀ (ps : List Prompt) (rs : List String),
    ps.length = rs.length →
    (answersOf ps rs).map Prod.fst = ps.map Prompt.key := by
  intro ps
  induction ps with
  | nil => intro rs h; rfl
  | cons p ps' ih =>
    intro rs h
    cases rs with
    | nil => simp at h
    | cons r rs' =>
      simp only [List.length_cons, Nat.add_right_cancel_iff] at h
      simp only [answersOf, List.zip_cons_cons, List.map_cons]
      exact congrArg _ (ih rs' h)

/-- `parseShape` ignores a leading response whose key the shape does not
declare. -/
lemma parseShape_cons_irrel (k : String) (v : Value) :
    ∀ (shape : List (String × (Value → Bool))) (resp : List (String × Value)),
      k ∉ shape.map Prod.fst →
      parseShape shape ((k, v) :: resp) = parseShape shape resp := by
  intro shape
  induction shape with
  | nil => intro resp h; rfl
  | cons e rest ih =>
    intro resp h
    obtain ⟨k1, chk⟩ := e
    simp only [List.map_cons, List.mem_cons, not_or] at h
    have hne : (k == k1) = false := beq_eq_false_iff_ne.mpr h.1
    simp only [parseShape, mapGet_cons_ne k v resp k1 hne]
    rw [ih resp h.2]

/-- The aggregate object parse succeeds and is the identity on a response
list whose keys match the shape's keys in order (without duplicates) and
whose every value passes its field's check. -/
lemma parseShape_of_aligned :
    ∀ (shape : List (String × (Value → Bool))) (resp : List (String × Value)),
      resp.map Prod.fst = shape.map Prod.fst →
      (shape.map Prod.fst).Nodup →
      (∀ kv ∈ resp, ∃ c, mapGet shape kv.1 = some c ∧ c kv.2 = true) →
      parseShape shape resp = some resp := by
  intro shape
  induction shape with
  | nil =>
    intro resp hkeys _ _
    have : resp = [] := by
      cases resp with
      | nil => rfl
      | cons kv rest => simp at hkeys
    rw [this]
    rfl
  | cons e rest ih =>
    intro resp hkeys hnodup hchecks
    obtain ⟨k, c⟩ := e
    cases resp with
    | nil => simp at hkeys
    | cons kv resp' =>
      obtain ⟨k1, v⟩ := kv
      simp only [List.map_cons, List.cons.injEq] at hkeys
      obtain ⟨hk1, hkeys'⟩ := hkeys
      subst hk1
      simp only [List.map_cons, List.nodup_cons] at hnodup
      obtain ⟨hknotin, hnodup'⟩ := hnodup
      obtain ⟨c2, hc2, hcv⟩ := hchecks (k1, v) (by simp)
      have hselfShape : mapGet ((k1, c) :: rest) k1 = some c := by
        simp [mapGet]
      rw [hselfShape] at hc2
      have hcc : c = c2 := by
        injection hc2
      subst hcc
      have hselfResp : mapGet ((k1, v) :: resp') k1 = some v := by
        simp [mapGet]
      simp only [parseShape, hselfResp, hcv, if_true]
      rw [parseShape_cons_irrel k1 v rest resp' hknotin]
      have hrec : parseShape rest resp' = some resp' := by
        apply ih resp' hkeys' hnodup'
        intro kv2 hkv2
        obtain ⟨c3, hc3, hc3v⟩ := hchecks kv2 (by simp [hkv2])
        have hmem : kv2.1 ∈ List.map Prod.fst rest := by
          rw [← hkeys']
          exact List.mem_map_of_mem Prod.fst hkv2
        have hkv2ne : (k1 == kv2.1) = false := by
          apply beq_eq_false_iff_ne.mpr
          intro he
          exact hknotin (he ▸ hmem)
        rw [mapGet_cons_ne k1 c rest kv2.1 hkv2ne] at hc3
        exact ⟨c3, hc3, hc3v⟩
      rw [hrec]

/-- A `set` that lowers the flow flag while the single pending `exec`'s
command tops the stack fires its finalizer: the subscription is removed,
the aggregate parse succeeds, the result is resolved and the frame popped. -/
lemma applySet_fires (m : Machine) (st : BotState) (cmd : Cmd) (sid : Nat)
    (answers : List (String × Value))
    (hpend : m.pending = [(sid, cmd)])
    (hflow : st.isInPromptFlow = false)
    (htop : st.commandStack = [cmd])
    (hparse : parseShape cmd.shape st.responses = some answers) :
    applySet m st =
      ({ m with
         store := popCommand st
         pending := []
         results := m.results ++ [(cmd.name, answers)] }, false) := by
  have hcond : (!st.isInPromptFlow && (topName st == some cmd.name)) = true := by
    simp [hflow, topName, topCmd, htop]
  unfold applySet
  show runSubs st m.pending { m with store := st } = _
  rw [hpend]
  simp only [runSubs, hcond, if_true, hparse]
  simp [runSubs, List.filter]

/-- A reply passing the field validation on the last prompt finalizes the
frame: the value is recorded, the cursor exhausts, the subscriber parses
the full answers, resolves and pops, and the follow-up `sendNextPrompt`
resets the already-cleared flow. -/
lemma handlePromptResponse_valid_last (m : Machine) (cmd : Cmd) (i : Nat)
    (p : Prompt) (chk : Value → Bool) (r : String) (sid : Nat)
    (answers : List (String × Value))
    (hstack : m.store.commandStack = [cmd])
    (hflow : m.store.isInPromptFlow = true)
    (hidx : m.store.currentPromptIndex = some i)
    (hpend : m.pending = [(sid, cmd)])
    (hp : cmd.prompts[i]? = some p)
    (hchk : mapGet cmd.shape p.key = some chk)
    (hgood : chk (parseOf p r) = true)
    (hr0 : (r == "") = false)
    (hi1 : i + 1 = cmd.prompts.length)
    (hparse : parseShape cmd.shape (insertMap m.store.responses p.key (parseOf p r))
      = some answers) :
    handlePromptResponse m r =
      { m with
        store := initState
        pending := []
        results := m.results ++ [(cmd.name, answers)] } := by
  have hl2 : m.store.commandStack.getLast? = some cmd := by
    rw [hstack]
    rfl
  have htop : topCmd m.store = some cmd := hl2
  have hnp : nextPrompt (gotResponse m.store p.key (parseOf p r)) =
      { commandStack := m.store.commandStack
        currentPromptIndex := none
        responses := insertMap m.store.responses p.key (parseOf p r)
        isInPromptFlow := false } := by
    simp [nextPrompt, gotResponse, hl2, hidx, ← hi1]
  have hpop : popCommand
      { commandStack := m.store.commandStack
        currentPromptIndex := none
        responses := insertMap m.store.responses p.key (parseOf p r)
        isInPromptFlow := false } = initState := by
    simp [popCommand, hstack, initState]
  simp only [handlePromptResponse, hr0, Bool.false_eq_true, if_false, htop, hidx, hp, hchk,
    hgood, if_true]
  rw [applySet_of_inflow _ _ (by simpa [gotResponse] using hflow)]
  simp only []
  have hfire := applySet_fires
    { m with store := gotResponse m.store p.key (parseOf p r) }
    (nextPrompt (gotResponse m.store p.key (parseOf p r))) cmd sid answers hpend
    (by rw [hnp]) (by rw [hnp]; exact hstack) (by rw [hnp]; exact hparse)
  rw [hfire]
  simp only []
  rw [hnp, hpop]
  simp [sendNextPrompt, topCmd, initState, finishPromptFlow, resetFlow,
    applySet_of_emptyStack]

/-- C5: for every active prompt — final or not — an inbound reply that
fails parsing/validation leaves the whole machine unchanged except for the
invalid-input report (cursor and answers untouched), and a subsequent
valid reply to the same prompt is accepted and advances the flow
normally: on a non-final prompt the validated value is recorded, the
cursor moves on and the next prompt is sent; on the final prompt the
value is recorded and the frame finalizes — the aggregate parse of the
completed answers resolves the pending `exec` with them, the frame is
popped and the store returns to `Idle`. -/
theorem C5_invalid_input_recovery (m : Machine) (cmd : Cmd) (i : Nat)
    (p : Prompt) (chk : Value → Bool) (r r2 : String)
    (hflow : m.store.isInPromptFlow = true)
    (htop : topCmd m.store = some cmd)
    (hidx : m.store.currentPromptIndex = some i)
    (hp : cmd.prompts[i]? = some p)
    (hchk : mapGet cmd.shape p.key = some chk)
    (hr0 : (r == "") = false)
    (hr1 : (jsToLower (jsTrim r) == "/help") = false)
    (hr2 : (jsToLower (jsTrim r) == "/stop") = false)
    (hbad : chk (parseOf p r) = false)
    (hs0 : (r2 == "") = false)
    (hs1 : (jsToLower (jsTrim r2) == "/help") = false)
    (hs2 : (jsToLower (jsTrim r2) == "/stop") = false)
    (hgood : chk (parseOf p r2) = true) :
    handleMessage m r = { m with outbox := m.outbox ++ [invalidInputMsg] } ∧
    (∀ p2, i + 1 < cmd.prompts.length → cmd.prompts[i + 1]? = some p2 →
      handleMessage m r2 = { m with
        store := { m.store with
          responses := insertMap m.store.responses p.key (parseOf p r2),
          currentPromptIndex := some (i + 1),
          isInPromptFlow := true },
        outbox := m.outbox ++ [p2.text] }) ∧
    (∀ sid answers, i + 1 = cmd.prompts.length →
      m.store.commandStack = [cmd] →
      m.pending = [(sid, cmd)] →
      parseShape cmd.shape (insertMap m.store.responses p.key (parseOf p r2))
        = some answers →
      handleMessage m r2 = { m with
        store := initState,
        pending := [],
        results := m.results ++ [(cmd.name, answers)] }) := by
  refine ⟨?_, ?_, ?_⟩
  · rw [handleMessage_in_flow m r hflow hr0 hr1 hr2]
    exact handlePromptResponse_invalid m cmd i p chk r hr0 htop hidx hp hchk hbad
  · intro p2 hnext hp2
    rw [handleMessage_in_flow m r2 hflow hs0 hs1 hs2]
    exact handlePromptResponse_valid_mid m cmd i p p2 chk r2 hflow hs0 htop hidx hp hchk
      hgood hnext hp2
  · intro sid answers hi1 hstack hpend hparse
    rw [handleMessage_in_flow m r2 hflow hs0 hs1 hs2]
    exact handlePromptResponse_valid_last m cmd i p chk r2 sid answers hstack hflow hidx
      hpend hp hchk hgood hs0 hi1 hparse

/-- Witness for `C5_invalid_input_recovery`, covering both branches.  On
`order_item`'s final prompt (`quantity`, with `productName` already
answered — the spec's §8 scenario) the reply "-1" is rejected with no
state change beyond the report, and "5" is then accepted and finalizes
the order with `quantity = 5`.  On `customer_info`'s non-final `name`
prompt, "Jo" is accepted, recorded, and the `email` prompt is sent. -/
theorem C5_invalid_input_recovery_witness :
    handleMessage c5QtyMachine "-1" =
      { c5QtyMachine with outbox := c5QtyMachine.outbox ++ [invalidInputMsg] } ∧
    handleMessage c5QtyMachine "5" = { c5QtyMachine with
      store := initState,
      pending := [],
      results := c5QtyMachine.results ++
        [("order_item", [("productName", Value.vstr "Widget"),
          ("quantity", Value.vnum 5)])] } ∧
    handleMessage c5Machine "Jo" = { c5Machine with
      store := { c5Machine.store with
        responses := insertMap c5Machine.store.responses "name" (Value.vstr "Jo"),
        currentPromptIndex := some 1,
        isInPromptFlow := true },
      outbox := c5Machine.outbox ++ ["Customer Email"] } := by
  have hq := C5_invalid_input_recovery c5QtyMachine orderItemCmd 1
    { key := "quantity", text := "Quantity", help := some "A positive integer.",
      parser := some jsParseInt }
    isIntPositive "-1" "5" (by decide) rfl rfl rfl rfl (by decide) (by decide) (by decide)
    (by decide) (by decide) (by decide) (by decide) (by decide)
  have hn := C5_invalid_input_recovery c5Machine customerInfoCmd 0
    { key := "name", text := "Customer Name", help := some "At least 2 characters." }
    (isStrMin 2) "J" "Jo" (by decide) rfl rfl rfl rfl (by decide) (by decide) (by decide)
    (by decide) (by decide) (by decide) (by decide) (by decide)
  refine ⟨hq.1, ?_, ?_⟩
  · exact hq.2.2 0
      [("productName", Value.vstr "Widget"), ("quantity", Value.vnum 5)]
      rfl rfl rfl (by decide)
  · exact hn.2.1
      { key := "email", text := "Customer Email", help := some "A valid email address." }
      (by decide) rfl

/-- `exec` on a permitted command with at least one prompt: a frame is
pushed, the finalizer subscribed, the title (when non-empty) and the first
prompt sent. -/
lemma exec_starts (m : Machine) (cmd : Cmd) (nm : String) (p0 : Prompt)
    (hc : mapGet m.commands nm = some cmd)
    (hacc : cmd.isPublic = true ∨ m.hasAccess = true)
    (hp0 : cmd.prompts[0]? = some p0) :
    exec m nm = .ok { m with
      store := pushCommand m.store cmd,
      pending := m.pending ++ [(m.nextSubId, cmd)],
      nextSubId := m.nextSubId + 1,
      outbox := (m.outbox ++ (if cmd.title == "" then [] else ["*" ++ cmd.title ++ "*"]))
        ++ [p0.text] } := by
  have hguard : (!cmd.isPublic && !m.hasAccess) = false := by
    rcases hacc with h | h <;> simp [h]
  unfold exec
  rw [hc]
  simp only [hguard, Bool.false_eq_true, if_false]
  rw [applySet_of_inflow _ _ rfl]
  cases htitle : (cmd.title == "") with
  | true =>
    simp [sendNextPrompt, topCmd, pushCommand, hp0, htitle]
  | false =>
    simp [sendNextPrompt, topCmd, pushCommand, hp0, htitle]

/-- `Forall₂` is closed under appending matching lists. -/
lemma forall2_append {α β : Type} {R : α → β → Prop} :
    ∀ {l1 : List α} {l2 : List β} {l3 : List α} {l4 : List β},
      List.Forall₂ R l1 l2 → List.Forall₂ R l3 l4 → List.Forall₂ R (l1 ++ l3) (l2 ++ l4) := by
  intro l1 l2 l3 l4 h1 h2
  induction h1 with
  | nil => exact h2
  | cons hab htail ih => exact List.Forall₂.cons hab ih

/-- From pointwise good replies, every collected answer passes the field
check the shape holds for its key. -/
lemma goodReplies_checks (cmd : Cmd) :
    ∀ {ps : List Prompt} {rs : List String},
      List.Forall₂ (GoodReply cmd) ps rs →
      ∀ kv ∈ answersOf ps rs, ∃ c, mapGet cmd.shape kv.1 = some c ∧ c kv.2 = true := by
  intro ps rs h
  induction h with
  | nil => intro kv hkv; simp [answersOf] at hkv
  | cons hab htail ih =>
    intro kv hkv
    simp only [answersOf, List.zip_cons_cons, List.map_cons, List.mem_cons] at hkv
    rcases hkv with hkv | hkv
    · obtain ⟨_, _, _, c, hc, hcv⟩ := hab
      rw [hkv]
      exact ⟨c, hc, hcv⟩
    · exact ih kv hkv

/-- Driving a mid-flow machine with one good reply per remaining prompt
finalizes the frame: the remaining prompts are sent as they come up, the
aggregate parse succeeds on the full answers, the `exec` resolves with
them, and the store returns to `Idle`. -/
lemma runMessages_completes (cmd : Cmd)
    (hnodup : (cmd.prompts.map Prompt.key).Nodup)
    (hshape : cmd.shape.map Prod.fst = cmd.prompts.map Prompt.key)
    (reg : List (String × Cmd)) (acc : Bool)
    (res : List (String × List (String × Value))) (sid n : Nat) :
    ∀ (rest done : List Prompt) (rsDone replies : List String) (ob : List String),
      cmd.prompts = done ++ rest →
      rest ≠ [] →
      List.Forall₂ (GoodReply cmd) done rsDone →
      List.Forall₂ (GoodReply cmd) rest replies →
      runMessages (midMachine reg acc res sid n cmd done.length (answersOf done rsDone) ob)
        replies =
      { store := initState
        commands := reg
        pending := []
        nextSubId := n
        outbox := ob ++ rest.tail.map Prompt.text
        results := res ++ [(cmd.name, answersOf cmd.prompts (rsDone ++ replies))]
        hasAccess := acc } := by
  intro rest
  induction rest with
  | nil =>
    intro done rsDone replies ob hsplit hne hdone hrest
    exact absurd rfl hne
  | cons p rest' ih =>
    intro done rsDone replies ob hsplit hne hdone hrest
    cases hrest with
    | cons hgr htail =>
      rename_i r rrest
      have hlen : done.length = rsDone.length := hdone.length_eq
      have hp : cmd.prompts[done.length]? = some p := by
        rw [hsplit, List.getElem?_append_right (le_refl _)]
        simp
      have hknotin : p.key ∉ done.map Prompt.key := by
        intro hmem
        have h := hnodup
        rw [hsplit, List.map_append] at h
        exact (List.nodup_append.mp h).2.2 hmem (by simp)
      have hins : insertMap (answersOf done rsDone) p.key (parseOf p r) =
          answersOf done rsDone ++ [(p.key, parseOf p r)] := by
        apply insertMap_append
        rw [answersOf_keys done rsDone hlen]
        exact hknotin
      obtain ⟨hr0, hr1, hr2, chk, hchk, hkgood⟩ := hgr
      cases rest' with
      | nil =>
        cases htail
        have hi1 : done.length + 1 = cmd.prompts.length := by
          rw [hsplit]
          simp
        have hfullgood : List.Forall₂ (GoodReply cmd) cmd.prompts (rsDone ++ [r]) := by
          rw [hsplit]
          exact forall2_append hdone
            (List.Forall₂.cons ⟨hr0, hr1, hr2, chk, hchk, hkgood⟩ List.Forall₂.nil)
        have hfull : insertMap (answersOf done rsDone) p.key (parseOf p r) =
            answersOf cmd.prompts (rsDone ++ [r]) := by
          rw [hins, hsplit, answersOf_append done rsDone hlen p r]
        have hparse : parseShape cmd.shape
            (insertMap (answersOf done rsDone) p.key (parseOf p r)) =
            some (answersOf cmd.prompts (rsDone ++ [r])) := by
          rw [hfull]
          apply parseShape_of_aligned
          · rw [answersOf_keys cmd.prompts (rsDone ++ [r]) hfullgood.length_eq, hshape]
          · rw [hshape]
            exact hnodup
          · exact goodReplies_checks cmd hfullgood
        rw [runMessages]
        rw [handleMessage_in_flow _ _ rfl hr0 hr1 hr2]
        rw [handlePromptResponse_valid_last (midMachine reg acc res sid n cmd done.length
          (answersOf done rsDone) ob) cmd done.length p chk r sid
          (answersOf cmd.prompts (rsDone ++ [r])) rfl rfl rfl rfl hp hchk hkgood hr0 hi1 hparse]
        simp [runMessages, midMachine]
      | cons p2 rs' =>
        have hnext : done.length + 1 < cmd.prompts.length := by
          rw [hsplit]
          simp only [List.length_append, List.length_cons]
          omega
        have hp2 : cmd.prompts[done.length + 1]? = some p2 := by
          rw [hsplit, List.getElem?_append_right (Nat.le_succ_of_le (le_refl _))]
          simp
        rw [runMessages]
        rw [handleMessage_in_flow _ _ rfl hr0 hr1 hr2]
        rw [handlePromptResponse_valid_mid (midMachine reg acc res sid n cmd done.length
          (answersOf done rsDone) ob) cmd done.length p p2 chk r rfl hr0 rfl rfl hp hchk
          hkgood hnext hp2]
        have hmach : ({ midMachine reg acc res sid n cmd done.length
              (answersOf done rsDone) ob with
            store := { (midMachine reg acc res sid n cmd done.length
                (answersOf done rsDone) ob).store with
              responses := insertMap (midMachine reg acc res sid n cmd done.length
                (answersOf done rsDone) ob).store.responses p.key (parseOf p r)
              currentPromptIndex := some (done.length + 1)
              isInPromptFlow := true }
            outbox := (midMachine reg acc res sid n cmd done.length
              (answersOf done rsDone) ob).outbox ++ [p2.text] } : Machine) =
            midMachine reg acc res sid n cmd (done ++ [p]).length
              (answersOf (done ++ [p]) (rsDone ++ [r])) (ob ++ [p2.text]) := by
          simp only [midMachine]
          rw [answersOf_append done rsDone hlen p r]
          simp [hins, List.length_append]
        rw [hmach]
        have hsplit2 : cmd.prompts = (done ++ [p]) ++ (p2 :: rs') := by
          rw [hsplit]
          simp
        have hdone2 : List.Forall₂ (GoodReply cmd) (done ++ [p]) (rsDone ++ [r]) :=
          forall2_append hdone
            (List.Forall₂.cons ⟨hr0, hr1, hr2, chk, hchk, hkgood⟩ List.Forall₂.nil)
        rw [ih (done ++ [p]) (rsDone ++ [r]) rrest (ob ++ [p2.text]) hsplit2
          (List.cons_ne_nil p2 rs') hdone2 htail]
        simp

/-- `answersOf` at the empty prompt list. -/
lemma answersOf_nil : answersOf [] [] = [] := rfl

/-- C1 amended: for every registered command with a non-empty prompt list
whose prompt keys are distinct and whose aggregate schema declares exactly
those keys (the spec's CommandSpec invariants), starting it on an idle bot
and replying with one accepted reply per prompt, in declared order,
completes the flow — the store returns to `Idle` with the finalizer
subscription consumed — and resolves the `exec` with the finalized
answers: exactly each prompt's parsed, field-validated reply value, keyed
and ordered by the command's declared prompt keys. -/
theorem C1_complete_flow (m0 : Machine) (cmd : Cmd) (nm : String) (replies : List String)
    (hstore : m0.store = initState)
    (hpend : m0.pending = [])
    (hc : mapGet m0.commands nm = some cmd)
    (hacc : cmd.isPublic = true ∨ m0.hasAccess = true)
    (hnodup : (cmd.prompts.map Prompt.key).Nodup)
    (hshape : cmd.shape.map Prod.fst = cmd.prompts.map Prompt.key)
    (hne : cmd.prompts ≠ [])
    (hgood : List.Forall₂ (GoodReply cmd) cmd.prompts replies) :
    ∃ m1, exec m0 nm = .ok m1 ∧
      (runMessages m1 replies).results =
        m0.results ++ [(cmd.name, answersOf cmd.prompts replies)] ∧
      (runMessages m1 replies).store = initState ∧
      (runMessages m1 replies).pending = [] := by
  have hp0 : ∃ p0, cmd.prompts[0]? = some p0 := by
    cases hps : cmd.prompts with
    | nil => exact absurd hps hne
    | cons p0 ps => exact ⟨p0, by simp⟩
  obtain ⟨p0, hp0⟩ := hp0
  have hexec := exec_starts m0 cmd nm p0 hc hacc hp0
  refine ⟨_, hexec, ?_⟩
  have hrun := runMessages_completes cmd hnodup hshape m0.commands m0.hasAccess m0.results
    m0.nextSubId (m0.nextSubId + 1) cmd.prompts [] [] replies
    ((m0.outbox ++ (if cmd.title == "" then [] else ["*" ++ cmd.title ++ "*"])) ++ [p0.text])
    (by simp) hne List.Forall₂.nil hgood
  simp only [List.length_nil, answersOf_nil, List.nil_append] at hrun
  have hm1 : ({ m0 with
      store := pushCommand m0.store cmd
      pending := m0.pending ++ [(m0.nextSubId, cmd)]
      nextSubId := m0.nextSubId + 1
      outbox := (m0.outbox ++ (if cmd.title == "" then [] else ["*" ++ cmd.title ++ "*"]))
        ++ [p0.text] } : Machine) =
      midMachine m0.commands m0.hasAccess m0.results m0.nextSubId (m0.nextSubId + 1) cmd 0 []
        ((m0.outbox ++ (if cmd.title == "" then [] else ["*" ++ cmd.title ++ "*"]))
          ++ [p0.text]) := by
    simp [midMachine, pushCommand, hstore, hpend, initState]
  rw [hm1, hrun]
  exact ⟨rfl, rfl, rfl⟩

/-- Witness for `C1_complete_flow`: the spec's §8 `order_item` scenario —
replies "Widget" then "3" finalize to the answers
`productName = "Widget"`, `quantity = 3`, in prompt order. -/
theorem C1_complete_flow_witness :
    ∃ m1, exec (mkMachine appRegistry) "order_item" = .ok m1 ∧
      (runMessages m1 ["Widget", "3"]).results =
        (mkMachine appRegistry).results ++
          [(orderItemCmd.name, answersOf orderItemCmd.prompts ["Widget", "3"])] ∧
      (runMessages m1 ["Widget", "3"]).store = initState ∧
      (runMessages m1 ["Widget", "3"]).pending = [] := by
  apply C1_complete_flow (mkMachine appRegistry) orderItemCmd "order_item" ["Widget", "3"]
    rfl rfl rfl (Or.inl rfl) (by decide) (by decide) (List.cons_ne_nil _ _)
  exact List.Forall₂.cons
    ⟨by decide, by decide, by decide, isStrMin 1, rfl, by decide⟩
    (List.Forall₂.cons
      ⟨by decide, by decide, by decide, isIntPositive, rfl, by decide⟩
      List.Forall₂.nil)
